import Mathlib

/-!
Verification development for the docstring-introspection subsystem of a
django-rest-swagger fork (files `introspectors.py`, `docstrurlparser.py`,
`docstrcollector.py`).  Python strings are embedded as `List Char`; Python
dicts as association lists with insertion-order semantics; fallible code as
`Except`/`Option`.  Definitions are transcribed from the Python source;
external library helpers the source calls (django's `trim_docstring`,
DRF's `get_view_description`) are modelled explicitly where their behaviour
matters and kept abstract (function parameters / stored results) elsewhere.
-/

set_option maxRecDepth 4000

/-- Python strings, embedded as character lists. -/
abbrev Str := List Char

/-- Coerce a Lean string literal to the `Str` embedding. -/
def chars (s : String) : Str := s.data

/-! ### Python `str` primitives -/

/-- Python whitespace predicate used by `str.strip` / `str.lstrip` / `str.rstrip`
(the ASCII whitespace characters; docstrings in this code base contain no other
unicode whitespace). -/
def isPySpace (c : Char) : Bool :=
  c = ' ' || c = '\t' || c = '\n' || c = '\r' || c = '\x0b' || c = '\x0c'

/-- Python `str.lstrip()` (no argument: strip leading whitespace). -/
def pyLStrip (s : Str) : Str := s.dropWhile isPySpace

/-- Python `str.rstrip()`. -/
def pyRStrip (s : Str) : Str := (s.reverse.dropWhile isPySpace).reverse

/-- Python `str.strip()`. -/
def pyStrip (s : Str) : Str := pyRStrip (pyLStrip s)

/-- Index of the first occurrence of `sep` in `s` (Python `str.find`, as an
`Option`): `none` models a `-1` result.  For empty `sep` Python returns `0`,
matched by the `List.isPrefixOf` base case. -/
def findSub (sep : Str) : Str → Option Nat
  | [] => if List.isPrefixOf sep ([] : Str) then some 0 else Option.none
  | c :: rest =>
      if List.isPrefixOf sep (c :: rest) then some 0
      else (findSub sep rest).map (· + 1)

/-- Python `sub in s` / `s.find(sub) != -1`. -/
def hasSub (sep s : Str) : Bool := (findSub sep s).isSome

/-- Python `s.split('\n')` (single-character separator, used for line
splitting throughout the source). -/
def splitNl : Str → List Str
  | [] => [[]]
  | c :: rest =>
      if c = '\n' then [] :: splitNl rest
      else
        match splitNl rest with
        | [] => [[c]]
        | h :: t => (c :: h) :: t

/-- Fuel-driven worker for Python `s.split(sep)` with a non-empty separator:
splits at each leftmost occurrence, scanning left to right.  The fuel is an
upper bound on the number of splits; `pySplit` supplies enough of it. -/
def pySplitGo (sep : Str) : Nat → Str → List Str
  | 0, s => [s]
  | fuel + 1, s =>
      match findSub sep s with
      | Option.none => [s]
      | some i => s.take i :: pySplitGo sep fuel (s.drop (i + sep.length))

/-- Python `s.split(sep)` for a non-empty `sep`. -/
def pySplit (sep s : Str) : List Str := pySplitGo sep (s.length + 1) s

/-- Fuel-driven worker for Python `s.replace(old, new)` with non-empty `old`:
replaces every non-overlapping occurrence, scanning left to right. -/
def pyReplaceGo (old new : Str) : Nat → Str → Str
  | 0, s => s
  | _ + 1, [] => []
  | fuel + 1, c :: rest =>
      if List.isPrefixOf old (c :: rest) && !old.isEmpty then
        new ++ pyReplaceGo old new fuel ((c :: rest).drop old.length)
      else c :: pyReplaceGo old new fuel rest

/-- Python `s.replace(old, new)` for non-empty `old`. -/
def pyReplace (old new s : Str) : Str := pyReplaceGo old new s.length s

/-- Python `sep.join(parts)`. -/
def joinWith (sep : Str) : List Str → Str
  | [] => []
  | x :: xs =>
      match xs with
      | [] => x
      | _ :: _ => x ++ sep ++ joinWith sep xs

/-- Worker for Python `str.expandtabs()` (tab size 8): `col` is the current
column, reset at line boundaries. -/
def pyExpandtabsGo : Nat → Str → Str
  | _, [] => []
  | col, c :: rest =>
      if c = '\t' then
        List.replicate (8 - col % 8) ' ' ++ pyExpandtabsGo (col + (8 - col % 8)) rest
      else if c = '\n' || c = '\r' then c :: pyExpandtabsGo 0 rest
      else c :: pyExpandtabsGo (col + 1) rest

/-- Python `str.expandtabs()` with the default tab size of 8. -/
def pyExpandtabs (s : Str) : Str := pyExpandtabsGo 0 s

/-- Python `str.splitlines()` restricted to `'\n'` line boundaries (the only
line terminator occurring in the docstrings this code handles): like
splitting on `'\n'` but without a trailing empty line, and `[]` on empty
input. -/
def pySplitlines : Str → List Str
  | [] => []
  | c :: rest =>
      if c = '\n' then [] :: pySplitlines rest
      else
        match pySplitlines rest with
        | [] => [[c]]
        | h :: t => (c :: h) :: t

/-! ### Association lists with Python `dict` semantics -/

/-- Set a key in an association list with Python `dict` semantics: an existing
key keeps its position and gets the new value, a new key is appended. -/
def assocSet {α β : Type} [DecidableEq α] : List (α × β) → α → β → List (α × β)
  | [], k, v => [(k, v)]
  | (k', v') :: rest, k, v =>
      if k' = k then (k, v) :: rest else (k', v') :: assocSet rest k v

/-- Python `d.get(k)` / `d[k]` lookup (first matching key; keys built through
`assocSet` are unique). -/
def assocGet {α β : Type} [DecidableEq α] : List (α × β) → α → Option β
  | [], _ => Option.none
  | (k', v') :: rest, k => if k' = k then some v' else assocGet rest k

/-- Python `k in d`. -/
def assocHasKey {α β : Type} [DecidableEq α] (d : List (α × β)) (k : α) : Bool :=
  (assocGet d k).isSome

/-- Python `d.update(e)`: fold `e`'s entries into `d` in order. -/
def assocUpdate {α β : Type} [DecidableEq α] (d e : List (α × β)) : List (α × β) :=
  e.foldl (fun acc kv => assocSet acc kv.1 kv.2) d

/-- A Python value stored in a parameter dict.  `range mx mn` models the
`allowableValues` sub-dict `{'max': mx, 'min': mn, 'valueType': 'RANGE'}`. -/
inductive PVal where
  | str (s : Str)
  | bool (b : Bool)
  | none
  | range (max : Option Nat) (min : Option Nat)
deriving DecidableEq, Repr

/-- A Python dict with string keys (parameter records and endpoint records). -/
abbrev Dict := List (Str × PVal)

/-- `dict` set for parameter records. -/
def dictSet (d : Dict) (k : Str) (v : PVal) : Dict := assocSet d k v

/-- `dict` lookup for parameter records. -/
def dictGet (d : Dict) (k : Str) : Option PVal := assocGet d k

/-- `dict` membership for parameter records. -/
def dictHasKey (d : Dict) (k : Str) : Bool := assocHasKey d k

/-- `dict.update` for parameter records. -/
def dictUpdate (d e : Dict) : Dict := assocUpdate d e

/-! ### django's `trim_docstring` (external dependency of the source)

`introspectors.py` imports `trim_docstring` from
`django.contrib.admindocs.utils`; its behaviour is needed to state anything
about `strip_params_from_docstring`, so it is modelled here from django:
uniform PEP-257 whitespace trimming (tab expansion, common leading indent
removal over all lines with content, per-line rstrip, overall strip). -/
def trim_docstring (docstring : Str) : Str :=
  if (pyStrip docstring).isEmpty then []
  else
    let lines := pySplitlines (pyExpandtabs docstring)
    let indents := (lines.filter (fun l => !(pyLStrip l).isEmpty)).map
      (fun l => l.length - (pyLStrip l).length)
    let indent :=
      match indents with
      | [] => 0
      | i :: is => is.foldl min i
    let trimmed :=
      match lines with
      | [] => []
      | first :: rest => pyLStrip first :: rest.map (fun l => pyRStrip (l.drop indent))
    pyStrip (joinWith (chars ("\n")) trimmed)

/-! ### `introspectors.py`: `IntrospectorHelper.strip_params_from_docstring` -/

/-- The loop of `strip_params_from_docstring` (lines 28-33): index of the
first line whose stripped form contains `'--'` (Python
`line.strip().find('--') != -1`), scanning top to bottom with `break`. -/
def cut_off_index : List Str → Option Nat
  | [] => Option.none
  | line :: rest =>
      if hasSub (chars ("--")) (pyStrip line) then some 0
      else (cut_off_index rest).map (· + 1)

/-- Lines 34-35 of `strip_params_from_docstring`: the slice
`split_lines[0:cut_off]` when a cut-off index was found, the whole list
otherwise. -/
def keptLines (split_lines : List Str) : List Str :=
  match cut_off_index split_lines with
  | some i => split_lines.take i
  | Option.none => split_lines

/-- `IntrospectorHelper.strip_params_from_docstring`: trim the docstring,
split into lines, drop everything from the first line containing `'--'`
onwards, replace blank lines by `'<br/>'` and join with spaces. -/
def strip_params_from_docstring (docstring : Str) : Str :=
  joinWith (chars (" "))
    ((keptLines (splitNl (trim_docstring docstring))).map
      (fun line => if line.isEmpty then chars ("<br/>") else line))

/-! ### `introspectors.py`: `BaseMethodIntrospector` -/

/-- A DRF serializer field as consumed by `build_form_parameters`: the
attributes the source reads (`read_only`, `type_label`, `max_length`,
`min_length`, `help_text`, `default`, `required`).  `help_text` and
`required` store the `getattr(..., default)` results; `defaultVal` stores
the already-resolved `get_resolved_value(field, 'default')` result (the
source calls the attribute when it is callable). -/
structure FieldInfo where
  read_only : Bool
  type_label : Str
  max_length : Option Nat
  min_length : Option Nat
  help_text : PVal
  defaultVal : PVal
  required : PVal
deriving DecidableEq, Repr

/-- The serializer class surface used by the source: `__name__` and the
`get_fields()` mapping in iteration order. -/
structure SerializerInfo where
  name : Str
  fields : List (Str × FieldInfo)
deriving DecidableEq, Repr

/-- State of a `BaseMethodIntrospector`: the HTTP method returned by
`get_http_method()`, the URL `path`, the method docstring from
`retrieve_docstring()` (`none` models both a missing method attribute and a
`None` `__doc__`), the class-level description returned by the external DRF
`get_view_description(self.callback)` (stored as a value), and the
serializer class reachable through `get_serializer_class()`. -/
structure MethodIntrospector where
  http_method : Str
  path : Str
  methodDoc : Option Str
  viewDescription : Str
  serializer : Option SerializerInfo
deriving DecidableEq, Repr

/-- `BaseMethodIntrospector.build_body_parameters`: `None` without a
serializer, else the dict `{'name': N, 'dataType': N, 'paramType': 'body'}`
for the serializer's `__name__`. -/
def build_body_parameters (m : MethodIntrospector) : Option Dict :=
  match m.serializer with
  | Option.none => Option.none
  | some s =>
      some [(chars ("name"), PVal.str s.name),
            (chars ("dataType"), PVal.str s.name),
            (chars ("paramType"), PVal.str (chars ("body")))]

/-- One match attempt of the regex `/{([^}]*)}` starting at the head of `s`:
after `'/'` and `'{'`, `scanTok` consumes `[^}]*` greedily and requires the
closing `'}'`, returning the captured token and the remainder. -/
def scanTok : Str → Option (Str × Str)
  | [] => Option.none
  | c :: r => if c = '}' then some ([], r) else (scanTok r).map (fun p => (c :: p.1, p.2))

/-- Attempt to match `/{([^}]*)}` at the current position. -/
def pathParamAt : Str → Option (Str × Str)
  | '/' :: '{' :: rest => scanTok rest
  | _ => Option.none

/-- Fuel-driven `re.findall('/{([^}]*)}', path)`: scan left to right for
non-overlapping matches, advancing one character when no match starts at the
current position.  `findallPathParams` supplies sufficient fuel. -/
def findallGo : Nat → Str → List Str
  | 0, _ => []
  | _ + 1, [] => []
  | fuel + 1, c :: rest =>
      match pathParamAt (c :: rest) with
      | some (tok, rem) => tok :: findallGo fuel rem
      | Option.none => findallGo fuel rest

/-- `re.findall('/{([^}]*)}', path)` capture list, left to right. -/
def findallPathParams (s : Str) : List Str := findallGo s.length s

/-- The dict built for one URL parameter in `build_path_parameters`. -/
def path_param_dict (tok : Str) : Dict :=
  [(chars ("name"), PVal.str tok),
   (chars ("dataType"), PVal.str (chars ("string"))),
   (chars ("paramType"), PVal.str (chars ("path"))),
   (chars ("required"), PVal.bool true)]

/-- `BaseMethodIntrospector.build_path_parameters`: one required string path
parameter per regex capture, in order of appearance. -/
def build_path_parameters (path : Str) : List Dict :=
  (findallPathParams path).map path_param_dict

/-- The dict built for one non-read-only serializer field in
`build_form_parameters` (the `allowableValues` sub-dict is present exactly
when a max or min length is declared). -/
def form_param_dict (nm : Str) (f : FieldInfo) : Dict :=
  [(chars ("paramType"), PVal.str (chars ("form"))),
   (chars ("name"), PVal.str nm),
   (chars ("dataType"), PVal.str f.type_label),
   (chars ("allowableValues"),
     if f.max_length.isSome || f.min_length.isSome then PVal.range f.max_length f.min_length
     else PVal.none),
   (chars ("description"), f.help_text),
   (chars ("defaultValue"), f.defaultVal),
   (chars ("required"), f.required)]

/-- `BaseMethodIntrospector.build_form_parameters`: empty without a
serializer, else one form dict per non-read-only field, in field order. -/
def build_form_parameters (m : MethodIntrospector) : List Dict :=
  match m.serializer with
  | Option.none => []
  | some s =>
      s.fields.filterMap (fun p => if p.2.read_only then Option.none else some (form_param_dict p.1 p.2))

/-! ### `introspectors.py`: the `[dataType=...]` regex

`build_query_params_from_docstring` matches the description against
`re.compile('.*(\\[dataType=(.+)\\]).*').match(description)`.  On the
newline-free line fragments it is applied to, Python's backtracking yields:
group 1 starts at the rightmost occurrence of `'[dataType='` that is
followed (with at least one character in between) by the last `']'` of the
string, and group 2 is everything between that occurrence and that last
`']'`. -/

/-- Index of the last `']'` in `s`. -/
def lastBracketIdx (s : Str) : Option Nat :=
  ((List.range s.length).filter (fun k => s.getD k ' ' = ']')).getLast?

/-- All indices where `'[dataType='` occurs in `s`. -/
def dataTypeStarts (s : Str) : List Nat :=
  (List.range s.length).filter (fun i => List.isPrefixOf (chars ("[dataType=")) (s.drop i))

/-- The `(group 1, group 2)` strings of a successful
`'.*(\\[dataType=(.+)\\]).*'` match, `none` when the regex does not match. -/
def dataTypeMatch (s : Str) : Option (Str × Str) :=
  match lastBracketIdx s with
  | Option.none => Option.none
  | some k =>
      match ((dataTypeStarts s).filter (fun i => i + 11 ≤ k)).getLast? with
      | Option.none => Option.none
      | some i =>
          let g2 := (s.drop (i + 10)).take (k - (i + 10))
          some (chars ("[dataType=") ++ g2 ++ [']'], g2)

/-- The tag-processing body of the docstring-parameter loop (lines 272-293):
starting from `{'name': ...}`, handle the `[paramType=form]` /
`[paramType=body]` override, the `[required]` flag and the `[dataType=X]`
regex, removing each recognised tag from the description, then store the
stripped remainder under `'description'`. -/
def applyParamTags (pd : Dict) (description : Str) : Dict :=
  let st :=
    if hasSub (chars ("[paramType=form]")) description then
      (dictSet pd (chars ("paramType")) (PVal.str (chars ("form"))),
       pyReplace (chars ("[paramType=form]")) [] description)
    else if hasSub (chars ("[paramType=body]")) description then
      (dictSet pd (chars ("paramType")) (PVal.str (chars ("body"))),
       pyReplace (chars ("[paramType=body]")) [] description)
    else (pd, description)
  let st :=
    if hasSub (chars ("[required]")) st.2 then
      (dictSet st.1 (chars ("required")) (PVal.bool true),
       pyReplace (chars ("[required]")) [] st.2)
    else st
  let st :=
    match dataTypeMatch st.2 with
    | some g => (dictSet st.1 (chars ("dataType")) (PVal.str g.2), pyReplace g.1 [] st.2)
    | Option.none => st
  dictSet st.1 (chars ("description")) (PVal.str (pyStrip st.2))

/-- One iteration of the `build_query_params_from_docstring` loop: a line is
a parameter candidate exactly when `line.split(' -- ')` has length two; the
part before the separator is the stripped name, the part after feeds the tag
processing. -/
def docstring_param_of_line (line : Str) : Option Dict :=
  match pySplit (chars (" -- ")) line with
  | [nm, description] =>
      some (applyParamTags [(chars ("name"), PVal.str (pyStrip nm))] description)
  | _ => Option.none

/-- `BaseMethodIntrospector.build_query_params_from_docstring`: scan the
method docstring (`or ''`) with the class-level view description appended
after a newline, one candidate per qualifying line. -/
def build_query_params_from_docstring (m : MethodIntrospector) : List Dict :=
  (splitNl ((m.methodDoc.getD []) ++ chars ("\n") ++ m.viewDescription)).filterMap
    docstring_param_of_line

/-! ### `introspectors.py`: `BaseMethodIntrospector.get_parameters` -/

/-- `param["name"]`, the key under which a parameter is registered in
`params_map` (every dict the source builds carries a `'name'` entry; a
missing entry would raise in Python and is defaulted here). -/
def paramNameKey (d : Dict) : PVal := (dictGet d (chars ("name"))).getD PVal.none

/-- The `params_map` built at lines 152-154, as a map from name to the
position of the dict in `params` (Python maps names to the dict objects
themselves; positions identify those shared objects here, with a later
duplicate name overwriting an earlier one exactly as a dict write would). -/
def buildParamsMap (params : List Dict) : List (PVal × Nat) :=
  (params.enum).foldl (fun acc p => assocSet acc (paramNameKey p.2) p.1) []

/-- One iteration of the docstring-merge loop (lines 157-166): a docstring
parameter whose name is already registered updates the registered dict in
place (`param.update(doc_param)`); otherwise it is appended after receiving
default `paramType='query'` and `dataType=''` entries when absent. -/
def mergeStep (pmap : List (PVal × Nat)) (acc : List Dict) (dp : Dict) : List Dict :=
  match assocGet pmap (paramNameKey dp) with
  | some i => acc.set i (dictUpdate (acc.getD i []) dp)
  | Option.none =>
      let dp1 :=
        if dictHasKey dp (chars ("paramType")) then dp
        else dictSet dp (chars ("paramType")) (PVal.str (chars ("query")))
      let dp2 :=
        if dictHasKey dp1 (chars ("dataType")) then dp1
        else dictSet dp1 (chars ("dataType")) (PVal.str (chars ("")))
      acc ++ [dp2]

/-- The docstring-parameter merge of `get_parameters` (lines 151-166): the
`params_map` is built once from the pre-merge parameters, then every
docstring parameter is folded in. -/
def mergeDoc (params : List Dict) (doc_params : List Dict) : List Dict :=
  doc_params.foldl (mergeStep (buildParamsMap params)) params

/-- Lines 136-149 of `get_parameters`: the parameter list assembled from the
path, form and body sources before docstring parameters are merged.  Form
parameters are added only for methods other than GET and DELETE, and the
body parameter only when additionally no form parameter was derived. -/
def base_params (m : MethodIntrospector) : List Dict :=
  let params : List Dict := []
  let path_params := build_path_parameters m.path
  let params := if path_params.isEmpty then params else params ++ path_params
  if m.http_method = chars ("GET") ∨ m.http_method = chars ("DELETE") then params
  else
    let form_params := build_form_parameters m
    let params := params ++ form_params
    match build_body_parameters m with
    | some bp => if form_params.isEmpty then params ++ [bp] else params
    | Option.none => params

/-- `BaseMethodIntrospector.get_parameters`: the assembled base parameters,
with the docstring parameters merged in when any exist. -/
def get_parameters (m : MethodIntrospector) : List Dict :=
  let docstring_params := build_query_params_from_docstring m
  let params := base_params m
  if docstring_params.isEmpty then params else mergeDoc params docstring_params

/-! ### `introspectors.py`: `ViewSetIntrospector._resolve_methods` -/

/-- A closure cell: `cell_contents` holds the bound `actions` mapping from
HTTP method name to action method name. -/
structure ClosureCell where
  cell_contents : List (Str × Str)
deriving DecidableEq, Repr

/-- The code object surface read by `_resolve_methods`: `co_freevars`, with
`none` modelling a missing `co_freevars` attribute. -/
structure FuncCode where
  co_freevars : Option (List Str)
deriving DecidableEq, Repr

/-- The `pattern.callback` surface read by `_resolve_methods`: `none` fields
model missing `func_code` / `func_closure` attributes. -/
structure ViewSetCallback where
  func_code : Option FuncCode
  func_closure : Option (List ClosureCell)
deriving DecidableEq, Repr

/-- The message of the `RuntimeError` raised at line 329. -/
def runtime_error_msg : Str :=
  chars ("Unable to use callback invalid closure/function specified.")

/-- `ViewSetIntrospector._resolve_methods`: a `RuntimeError` (modelled as
`Except.error runtime_error_msg`) when the callback misses `func_code`,
`func_closure` or `co_freevars`, or when `'actions'` is not among the free
variables; otherwise the `cell_contents` of the closure cell at the index of
`'actions'`.  A closure tuple shorter than the free-variable list would
raise an `IndexError` in Python, modelled as a distinct error. -/
def resolve_methods (cb : ViewSetCallback) : Except Str (List (Str × Str)) :=
  match cb.func_code, cb.func_closure with
  | some fc, some clo =>
      match fc.co_freevars with
      | some fv =>
          if chars ("actions") ∈ fv then
            match clo.get? (fv.indexOf (chars ("actions"))) with
            | some cell => Except.ok cell.cell_contents
            | Option.none => Except.error (chars ("IndexError: tuple index out of range"))
          else Except.error runtime_error_msg
      | Option.none => Except.error runtime_error_msg
  | _, _ => Except.error runtime_error_msg

/-! ### `docstrurlparser.py`: route tree flattening -/

/-- The class surface inspected by `__get_pattern_api_callback__` and
`__exclude_router_api_root__`: whether it relates to `APIView` (subclass for
`cls`, instance for `cls_instance`), whether it relates to `APIDocView`, and
its `__module__`. -/
structure ClsInfo where
  apiView : Bool
  apiDocView : Bool
  module : Str
deriving DecidableEq, Repr

/-- The `pattern.callback` surface of a leaf route: optional `cls` and
`cls_instance` attributes. -/
structure PatternCallback where
  cls : Option ClsInfo
  cls_instance : Option ClsInfo
deriving DecidableEq, Repr

/-- A leaf route node (`RegexURLPattern`): its optional `callback` attribute
and its `regex.pattern` source string. -/
structure LeafPattern where
  callback : Option PatternCallback
  regexPattern : Str
deriving DecidableEq, Repr

mutual
/-- A node of the URL tree: a leaf (`RegexURLPattern`) or a resolver
(`RegexURLResolver`) with an optional namespace, a pattern fragment and
child patterns. -/
inductive UrlTreeNode where
  | leaf (d : LeafPattern)
  | resolver (ns : Option Str) (regexPattern : Str) (children : UrlTreeList)
/-- A `urlpatterns` list (spelled out so that mutual structural recursion
over the tree stays kernel-reducible). -/
inductive UrlTreeList where
  | nil
  | cons (p : UrlTreeNode) (rest : UrlTreeList)
end

/-- `DocstrUrlParser.__get_pattern_api_callback__`: the `cls` attribute when
it is an `APIView` subclass other than `APIDocView`, else the `cls_instance`
attribute under the analogous checks, else `None`. -/
def get_pattern_api_callback (leaf : LeafPattern) : Option ClsInfo :=
  match leaf.callback with
  | Option.none => Option.none
  | some cb =>
      match cb.cls with
      | some c =>
          if c.apiView && !c.apiDocView then some c
          else
            match cb.cls_instance with
            | some ci => if ci.apiView && !ci.apiDocView then some ci else Option.none
            | Option.none => Option.none
      | Option.none =>
          match cb.cls_instance with
          | some ci => if ci.apiView && !ci.apiDocView then some ci else Option.none
          | Option.none => Option.none

/-- The dict returned by `__assemble_endpoint_data__`. -/
structure Endpoint where
  path : Str
  pat : LeafPattern
  callbackCls : ClsInfo
deriving DecidableEq, Repr

/-- `DocstrUrlParser.__assemble_endpoint_data__`: resolve the callback,
drop router API roots (module `rest_framework.routers`), simplify the
prefixed regex (django's `simplify_regex` is an external dependency and is
passed in abstractly), translate `<`/`>` captures to `{`/`}` braces, and
drop `.{format}` endpoints. -/
def assemble_endpoint_data (simplify : Str → Str) (leaf : LeafPattern) (pfx : Str) :
    Option Endpoint :=
  match get_pattern_api_callback leaf with
  | Option.none => Option.none
  | some cb =>
      if cb.module = chars ("rest_framework.routers") then Option.none
      else
        let path := (simplify (pfx ++ leaf.regexPattern)).map
          (fun c => if c = '<' then '{' else if c = '>' then '}' else c)
        if hasSub (chars (".{format}")) path then Option.none
        else some { path := path, pat := leaf, callbackCls := cb }

/-- Is this (optional) namespace in `exclude_namespaces`?  A `None`
namespace is never excluded (`None in [...strings...]` is false). -/
def nsExcluded (ns : Option Str) (exclude : List Str) : Bool :=
  match ns with
  | some n => n ∈ exclude
  | Option.none => false

/-- `DocstrUrlParser.__flatten_patterns_tree__`: leaves contribute their
assembled endpoint data (skipped when `None`); a resolver whose namespace is
excluded is skipped whole; any other resolver is recursed into with the
prefix extended by its own pattern fragment. -/
def flatten_patterns_tree (simplify : Str → Str) (exclude : List Str) :
    UrlTreeList → Str → List Endpoint
  | UrlTreeList.nil, _ => []
  | UrlTreeList.cons (UrlTreeNode.leaf d) rest, pfx =>
      (match assemble_endpoint_data simplify d pfx with
       | some e => [e]
       | Option.none => []) ++ flatten_patterns_tree simplify exclude rest pfx
  | UrlTreeList.cons (UrlTreeNode.resolver ns pat children) rest, pfx =>
      (if nsExcluded ns exclude then []
       else flatten_patterns_tree simplify exclude children (pfx ++ pat)) ++
      flatten_patterns_tree simplify exclude rest pfx

/-- The tree with every resolver node carrying an excluded namespace removed,
at every depth (a specification-side companion of the flattening walk, used
to state that excluded subtrees contribute nothing). -/
def pruneExcluded (exclude : List Str) : UrlTreeList → UrlTreeList
  | UrlTreeList.nil => UrlTreeList.nil
  | UrlTreeList.cons (UrlTreeNode.leaf d) rest =>
      UrlTreeList.cons (UrlTreeNode.leaf d) (pruneExcluded exclude rest)
  | UrlTreeList.cons (UrlTreeNode.resolver ns pat children) rest =>
      if nsExcluded ns exclude then pruneExcluded exclude rest
      else
        UrlTreeList.cons (UrlTreeNode.resolver ns pat (pruneExcluded exclude children))
          (pruneExcluded exclude rest)

/-- `true` when no resolver node anywhere in the list carries an excluded
namespace. -/
def noExcludedResolver (exclude : List Str) : UrlTreeList → Bool
  | UrlTreeList.nil => true
  | UrlTreeList.cons (UrlTreeNode.leaf _) rest => noExcludedResolver exclude rest
  | UrlTreeList.cons (UrlTreeNode.resolver ns _ children) rest =>
      !nsExcluded ns exclude && noExcludedResolver exclude children &&
        noExcludedResolver exclude rest

/-! ### `docstrcollector.py`: model resolution -/

mutual
/-- A model class as consumed by the model resolver: its `__name__`, its
`__doc__`, whether it has the `get_releated_models_classes` attribute
(Python `hasattr`), and, when it has, the list that attribute returns. -/
inductive ModelClass where
  | mk (name : Str) (doc : Str) (hasRel : Bool) (related : ModelClassList)
/-- A list of model classes (spelled out so that the transitive walk is a
kernel-reducible mutual structural recursion). -/
inductive ModelClassList where
  | nil
  | cons (c : ModelClass) (rest : ModelClassList)
end

/-- The `__name__` of a model class. -/
def ModelClass.name : ModelClass → Str
  | ModelClass.mk n _ _ _ => n

/-- The `__doc__` of a model class. -/
def ModelClass.doc : ModelClass → Str
  | ModelClass.mk _ d _ _ => d

/-- `hasattr(cls, "get_releated_models_classes")`. -/
def ModelClass.hasRelAttr : ModelClass → Bool
  | ModelClass.mk _ _ h _ => h

/-- Convert the spelled-out model list to a `List`. -/
def modelListToList : ModelClassList → List ModelClass
  | ModelClassList.nil => []
  | ModelClassList.cons c rest => c :: modelListToList rest

mutual
/-- `DocstrIntrospector._get_releated_classes_models_list`: the declared
related classes (when the attribute exists), each followed by its own
transitive expansion. -/
def get_releated_models_list : ModelClass → List ModelClass
  | ModelClass.mk _ _ hasRel l =>
      if hasRel then modelListToList l ++ releatedOfEach l else []
/-- The loop over `releated_obj_classes` (lines 43-46). -/
def releatedOfEach : ModelClassList → List ModelClass
  | ModelClassList.nil => []
  | ModelClassList.cons c rest =>
      (if c.hasRelAttr then get_releated_models_list c else []) ++ releatedOfEach rest
end

/-- `DocstrIntrospector.get_models`: empty without a `get_model_class`
capability; else the root model followed by its transitive related models. -/
def introspector_get_models (root : Option ModelClass) : List ModelClass :=
  match root with
  | Option.none => []
  | some r => r :: get_releated_models_list r

/-- `DocstrCollector.get_models` over a list of APIs, each contributing the
root model of its callback: every discovered class is stored under its name,
a later discovery with the same name overwriting the earlier one.  `parse`
abstracts `parser.load_obj_from_docstring` (the YAML docstring parser of
`docgenerator.py`, which is not part of these sources). -/
def collector_get_models {α : Type} (parse : Str → α) (apis : List (Option ModelClass)) :
    List (Str × α) :=
  apis.foldl
    (fun models root =>
      (introspector_get_models root).foldl
        (fun ms cls => assocSet ms cls.name (parse cls.doc)) models)
    []

/-! ### Concrete fixtures used by witnesses -/

/-- The parameter record extracted from
`"foo -- bar [required][dataType=int]"`. -/
def claim3_pd : Dict :=
  [(chars ("name"), PVal.str (chars ("foo"))),
   (chars ("required"), PVal.bool true),
   (chars ("dataType"), PVal.str (chars ("int"))),
   (chars ("description"), PVal.str (chars ("bar")))]

/-- An existing form parameter named `x` with empty `dataType` (the merge
override example of the specification). -/
def claim5_existing : Dict :=
  [(chars ("paramType"), PVal.str (chars ("form"))),
   (chars ("name"), PVal.str (chars ("x"))),
   (chars ("dataType"), PVal.str (chars (""))),
   (chars ("allowableValues"), PVal.none),
   (chars ("description"), PVal.str (chars (""))),
   (chars ("defaultValue"), PVal.none),
   (chars ("required"), PVal.bool true)]

/-- The docstring parameter extracted from `"x -- desc [dataType=int]"`. -/
def claim5_dp : Dict :=
  (docstring_param_of_line (chars ("x -- desc [dataType=int]"))).getD []

/-- A writable serializer field. -/
def claim6_field : FieldInfo :=
  { read_only := false, type_label := chars ("string"), max_length := Option.none,
    min_length := Option.none, help_text := PVal.str (chars ("")),
    defaultVal := PVal.none, required := PVal.bool true }

/-- A POST method introspector with one writable serializer field. -/
def claim6_m : MethodIntrospector :=
  { http_method := chars ("POST"), path := chars ("/a/{id}"),
    methodDoc := Option.none, viewDescription := chars (""),
    serializer := some { name := chars ("Ser"), fields := [(chars ("f1"), claim6_field)] } }

/-- A dispatch callback exposing the expected `actions` closure binding. -/
def claim8_good : ViewSetCallback :=
  { func_code := some { co_freevars := some [chars ("actions")] },
    func_closure := some [{ cell_contents := [(chars ("get"), chars ("list"))] }] }

/-- A dispatch callback without `func_code` / `func_closure` attributes. -/
def claim8_bad : ViewSetCallback :=
  { func_code := Option.none, func_closure := Option.none }

/-- A model class with no related-models attribute. -/
def claim9_leafModel (n d : Str) : ModelClass :=
  ModelClass.mk n d false ModelClassList.nil

/-- A model class declaring one related leaf model. -/
def claim9_modelB (nB dB nD dD : Str) : ModelClass :=
  ModelClass.mk nB dB true (ModelClassList.cons (claim9_leafModel nD dD) ModelClassList.nil)

/-- The root model of the C9 scenario: `A` declares `[B, C]` and `B`
declares `[D]`. -/
def claim9_modelA (nA dA nB dB nC dC nD dD : Str) : ModelClass :=
  ModelClass.mk nA dA true
    (ModelClassList.cons (claim9_modelB nB dB nD dD)
      (ModelClassList.cons (claim9_leafModel nC dC) ModelClassList.nil))

/-- A GET introspector whose class-level view description carries a
parameter line while the method docstring is absent. -/
def claim10_m : MethodIntrospector :=
  { http_method := chars ("GET"), path := chars (""),
    methodDoc := Option.none, viewDescription := chars ("tok -- from class"),
    serializer := Option.none }

/-- The parameter record extracted from the class-level line of
`claim10_m`. -/
def claim10_pd : Dict :=
  [(chars ("name"), PVal.str (chars ("tok"))),
   (chars ("description"), PVal.str (chars ("from class")))]

/-! ### Helper lemmas -/

theorem assocGet_assocSet_ne {α β : Type} [DecidableEq α]
    (d : List (α × β)) (k' k : α) (v : β) (h : k' ≠ k) :
    assocGet (assocSet d k' v) k = assocGet d k := by
  induction d with
  | nil => simp [assocSet, assocGet, h]
  | cons p rest ih =>
      obtain ⟨k0, v0⟩ := p
      by_cases h0 : k0 = k'
      · subst h0
        simp [assocSet, assocGet, h]
      · simp [assocSet, assocGet, h0, ih]

theorem assocGet_assocSet_self {α β : Type} [DecidableEq α]
    (d : List (α × β)) (k : α) (v : β) :
    assocGet (assocSet d k v) k = some v := by
  induction d with
  | nil => simp [assocSet, assocGet]
  | cons p rest ih =>
      obtain ⟨k0, v0⟩ := p
      by_cases h0 : k0 = k
      · subst h0
        simp [assocSet, assocGet]
      · simp [assocSet, assocGet, h0, ih]

theorem keptLines_eq_takeWhile (lines : List Str) :
    keptLines lines = lines.takeWhile (fun l => !(hasSub (chars ("--")) (pyStrip l))) := by
  induction lines with
  | nil => rfl
  | cons l rest ih =>
      by_cases h : hasSub (chars ("--")) (pyStrip l) = true
      · simp [keptLines, cut_off_index, h, List.takeWhile_cons]
      · have h' : hasSub (chars ("--")) (pyStrip l) = false := by
          cases hx : hasSub (chars ("--")) (pyStrip l) <;> simp_all
        unfold keptLines at ih ⊢
        cases hc : cut_off_index rest with
        | none =>
            rw [hc] at ih
            simp [cut_off_index, h', hc, List.takeWhile_cons, ← ih]
        | some i =>
            rw [hc] at ih
            simp [cut_off_index, h', hc, List.takeWhile_cons, List.take_succ_cons, ← ih]

theorem dictGet_applyParamTags_other (pd : Dict) (desc : Str) (k : Str)
    (h1 : chars ("paramType") ≠ k) (h2 : chars ("required") ≠ k)
    (h3 : chars ("dataType") ≠ k) (h4 : chars ("description") ≠ k) :
    dictGet (applyParamTags pd desc) k = dictGet pd k := by
  simp only [applyParamTags]
  repeat' split
  all_goals simp [dictGet, dictSet, assocGet_assocSet_ne, h1, h2, h3, h4]

/-! ### Claim C1 -/

/-- C1 (counterexample): the claim states that the notes body is truncated
exactly at the first line containing the literal token `' -- '` and that
lines without that token never trigger truncation.  The docstring
`"a--b\nok"` has no line containing `' -- '`, so the claim predicts that
both lines are kept (`"a--b ok"`); the code truncates at any line containing
plain `'--'` and returns the empty string. -/
theorem claim1_counterexample :
    strip_params_from_docstring (chars ("a--b\nok")) = chars ("") ∧
    splitNl (trim_docstring (chars ("a--b\nok"))) = [chars ("a--b"), chars ("ok")] ∧
    hasSub (chars (" -- ")) (chars ("a--b")) = false ∧
    hasSub (chars (" -- ")) (chars ("ok")) = false ∧
    chars ("") ≠ joinWith (chars (" ")) [chars ("a--b"), chars ("ok")] :=
  ⟨by decide, by decide, by decide, by decide, by decide⟩

/-- C1 (amended): for every docstring, the notes body is truncated exactly at
the first trimmed line that contains the two-character token `'--'` (spaces
around it are not required): every line before the first such line is kept,
with blank lines replaced by `'<br/>'` and the kept lines joined by spaces,
and no line at or after the first such line contributes; lines not
containing `'--'` never trigger truncation. -/
theorem claim1_strip_truncation (d : Str) :
    strip_params_from_docstring d =
    joinWith (chars (" "))
      (((splitNl (trim_docstring d)).takeWhile
          (fun line => !(hasSub (chars ("--")) (pyStrip line)))).map
        (fun line => if line.isEmpty then chars ("<br/>") else line)) := by
  unfold strip_params_from_docstring
  rw [keptLines_eq_takeWhile]

/-! ### Claim C2 -/

/-- C2 (counterexample): the claim states that any line with at least one
`' -- '` occurrence is a parameter candidate, split on the first occurrence
(name `"a"`, description `"b -- c"` here).  The code requires the split to
have exactly two pieces, so the line `"a -- b -- c"` (two occurrences,
three pieces) yields no parameter at all. -/
theorem claim2_counterexample :
    docstring_param_of_line (chars ("a -- b -- c")) = Option.none ∧
    (pySplit (chars (" -- ")) (chars ("a -- b -- c"))).length = 3 :=
  ⟨by decide, by decide⟩

/-- C2 (amended): a docstring line is a parameter candidate exactly when
splitting it on `' -- '` yields exactly two pieces (exactly one separator
occurrence under Python's left-to-right non-overlapping split); in that case
the piece before the separator, trimmed, becomes the parameter name and the
piece after feeds the description/tag processing.  A line with no `' -- '`
occurrence yields no parameter, and neither does a line with two or more
occurrences. -/
theorem claim2_candidate_iff_two_pieces (line : Str) :
    ((docstring_param_of_line line).isSome ↔
      (pySplit (chars (" -- ")) line).length = 2) ∧
    (∀ nm desc, pySplit (chars (" -- ")) line = [nm, desc] →
       ∃ pd, docstring_param_of_line line = some pd ∧
         dictGet pd (chars ("name")) = some (PVal.str (pyStrip nm))) := by
  unfold docstring_param_of_line
  rcases h : pySplit (chars (" -- ")) line with _ | ⟨a, _ | ⟨b, _ | ⟨c, t⟩⟩⟩
  · constructor
    · simp
    · intro nm desc hsp
      exact absurd hsp (by simp)
  · constructor
    · simp
    · intro nm desc hsp
      exact absurd hsp (by simp)
  · constructor
    · simp
    · intro nm desc hsp
      injection hsp with ha htl
      injection htl with hb _
      subst ha
      subst hb
      refine ⟨applyParamTags [(chars ("name"), PVal.str (pyStrip a))] b, rfl, ?_⟩
      rw [dictGet_applyParamTags_other _ _ _ (by decide) (by decide) (by decide) (by decide)]
      simp [dictGet, assocGet]
  · constructor
    · simp
    · intro nm desc hsp
      exact absurd hsp (by simp)

/-- C2 witness: the amended theorem applied to the concrete line
`"x -- y"`. -/
theorem claim2_witness :
    ((docstring_param_of_line (chars ("x -- y"))).isSome ↔
      (pySplit (chars (" -- ")) (chars ("x -- y"))).length = 2) ∧
    (∀ nm desc, pySplit (chars (" -- ")) (chars ("x -- y")) = [nm, desc] →
       ∃ pd, docstring_param_of_line (chars ("x -- y")) = some pd ∧
         dictGet pd (chars ("name")) = some (PVal.str (pyStrip nm))) :=
  claim2_candidate_iff_two_pieces (chars ("x -- y"))

/-! ### List and dict helper lemmas for the merge claims -/

theorem listGetD_set_ne {α : Type} (l : List α) (i j : Nat) (v d : α) (h : j ≠ i) :
    (l.set i v).getD j d = l.getD j d := by
  induction l generalizing i j with
  | nil => simp
  | cons a rest ih =>
      cases i with
      | zero =>
          cases j with
          | zero => exact absurd rfl h
          | succ j' => simp
      | succ i' =>
          cases j with
          | zero => simp
          | succ j' => simpa using ih i' j' (fun hh => h (by simp [hh]))

theorem listGetD_set_self {α : Type} (l : List α) (i : Nat) (v d : α) (h : i < l.length) :
    (l.set i v).getD i d = v := by
  induction l generalizing i with
  | nil => simp at h
  | cons a rest ih =>
      cases i with
      | zero => simp
      | succ i' => simpa using ih i' (by simpa using h)

theorem assocHasKey_iff_mem {α β : Type} [DecidableEq α] (d : List (α × β)) (k : α) :
    assocHasKey d k = true ↔ k ∈ d.map Prod.fst := by
  induction d with
  | nil => simp [assocHasKey, assocGet]
  | cons p rest ih =>
      obtain ⟨k0, v0⟩ := p
      by_cases h : k0 = k
      · subst h
        simp [assocHasKey, assocGet]
      · simp [assocHasKey, assocGet, h, Ne.symm h, ← ih]

theorem dictGet_dictUpdate_of_not_key (d e : Dict) (k : Str)
    (h : dictHasKey e k = false) :
    dictGet (dictUpdate d e) k = dictGet d k := by
  induction e generalizing d with
  | nil => rfl
  | cons p rest ih =>
      obtain ⟨k0, v0⟩ := p
      have hk0 : k0 ≠ k := by
        intro hh
        subst hh
        simp [dictHasKey, assocHasKey, assocGet] at h
      have hrest : dictHasKey rest k = false := by
        simpa [dictHasKey, assocHasKey, assocGet, hk0] using h
      have step : dictUpdate d ((k0, v0) :: rest) = dictUpdate (assocSet d k0 v0) rest := rfl
      rw [step, ih (assocSet d k0 v0) hrest]
      exact assocGet_assocSet_ne _ _ _ _ hk0

theorem dictGet_dictUpdate_of_key (d e : Dict) (k : Str) (v : PVal)
    (hnd : (e.map Prod.fst).Nodup) (hget : dictGet e k = some v) :
    dictGet (dictUpdate d e) k = some v := by
  induction e generalizing d with
  | nil => simp [dictGet, assocGet] at hget
  | cons p rest ih =>
      obtain ⟨k0, v0⟩ := p
      have step : dictUpdate d ((k0, v0) :: rest) = dictUpdate (assocSet d k0 v0) rest := rfl
      have hnd1 : (k0 :: rest.map Prod.fst).Nodup := hnd
      by_cases hk : k0 = k
      · subst hk
        have hv : v0 = v := by
          simpa [dictGet, assocGet] using hget
        subst hv
        have hnotmem : k0 ∉ rest.map Prod.fst := (List.nodup_cons.mp hnd1).1
        have hrest : dictHasKey rest k0 = false := by
          cases hq : dictHasKey rest k0
          · rfl
          · exact absurd ((assocHasKey_iff_mem rest k0).mp hq) hnotmem
        rw [step, dictGet_dictUpdate_of_not_key _ _ _ hrest]
        exact assocGet_assocSet_self _ _ _
      · have hget' : dictGet rest k = some v := by
          simpa [dictGet, assocGet, hk] using hget
        have hnd' : (rest.map Prod.fst).Nodup := by
          simpa using (List.nodup_cons.mp hnd1).2
        rw [step]
        exact ih (assocSet d k0 v0) hnd' hget'

/-! ### Claim C3 -/

/-- C3: the line `"foo -- bar [required][dataType=int]"` yields a parameter
named `foo` with `required=true`, `dataType="int"` and description `"bar"`
(both bracket tags removed); swapping the order of the two tags yields the
identical record; and any docstring line list containing this line
contributes this record to the extracted parameters. -/
theorem claim3_bracket_tags :
    (docstring_param_of_line (chars ("foo -- bar [required][dataType=int]")) =
       docstring_param_of_line (chars ("foo -- bar [dataType=int][required]"))) ∧
    docstring_param_of_line (chars ("foo -- bar [required][dataType=int]")) = some claim3_pd ∧
    dictGet claim3_pd (chars ("name")) = some (PVal.str (chars ("foo"))) ∧
    dictGet claim3_pd (chars ("required")) = some (PVal.bool true) ∧
    dictGet claim3_pd (chars ("dataType")) = some (PVal.str (chars ("int"))) ∧
    dictGet claim3_pd (chars ("description")) = some (PVal.str (chars ("bar"))) ∧
    (∀ lines : List Str, chars ("foo -- bar [required][dataType=int]") ∈ lines →
       claim3_pd ∈ lines.filterMap docstring_param_of_line) := by
  refine ⟨by decide, by decide, by decide, by decide, by decide, by decide, ?_⟩
  intro lines hmem
  exact List.mem_filterMap.mpr ⟨_, hmem, by decide⟩

/-- C3 witness: the membership part applied to the one-line docstring. -/
theorem claim3_witness :
    chars ("foo -- bar [required][dataType=int]") ∈
      [chars ("foo -- bar [required][dataType=int]")] ∧
    claim3_pd ∈
      [chars ("foo -- bar [required][dataType=int]")].filterMap docstring_param_of_line :=
  ⟨by decide,
   claim3_bracket_tags.2.2.2.2.2.2 [chars ("foo -- bar [required][dataType=int]")] (by decide)⟩

/-! ### Claim C4 -/

/-- C4 (counterexample): the claim states that every `{token}` capture group
in the path yields a parameter, but the code's regex `/{([^}]*)}` requires
the group to be immediately preceded by a slash: the path `"{id}"` contains
the group `{id}` yet yields no parameter, while `"/x/{id}"` yields one. -/
theorem claim4_counterexample :
    build_path_parameters (chars ("{id}")) = [] ∧
    ([] : List Dict) ≠ [path_param_dict (chars ("id"))] ∧
    build_path_parameters (chars ("/x/{id}")) = [path_param_dict (chars ("id"))] :=
  ⟨by decide, by decide, by decide⟩

/-- C4 (amended): path-parameter extraction yields one parameter per
`/{token}` occurrence (a `{token}` capture group immediately preceded by a
slash), each with `dataType="string"`, `paramType="path"` and
`required=true`, in left-to-right order of appearance; for the path
`"/users/{id}/posts/{post_id}"` it yields exactly the two parameters `id`
and `post_id` in that order. -/
theorem claim4_path_parameters :
    (∀ (path : Str) (p : Dict), p ∈ build_path_parameters path →
       ∃ tok, p = path_param_dict tok ∧
         dictGet p (chars ("dataType")) = some (PVal.str (chars ("string"))) ∧
         dictGet p (chars ("paramType")) = some (PVal.str (chars ("path"))) ∧
         dictGet p (chars ("required")) = some (PVal.bool true)) ∧
    build_path_parameters (chars ("/users/{id}/posts/{post_id}")) =
      [path_param_dict (chars ("id")), path_param_dict (chars ("post_id"))] := by
  constructor
  · intro path p hp
    rw [build_path_parameters] at hp
    obtain ⟨tok, _, rfl⟩ := List.mem_map.mp hp
    exact ⟨tok, rfl, rfl, rfl, rfl⟩
  · decide

/-- C4 witness: the structural part applied to the parameter extracted from
`"/x/{id}"`. -/
theorem claim4_witness :
    path_param_dict (chars ("id")) ∈ build_path_parameters (chars ("/x/{id}")) ∧
    ∃ tok, path_param_dict (chars ("id")) = path_param_dict tok ∧
      dictGet (path_param_dict (chars ("id"))) (chars ("dataType")) =
        some (PVal.str (chars ("string"))) ∧
      dictGet (path_param_dict (chars ("id"))) (chars ("paramType")) =
        some (PVal.str (chars ("path"))) ∧
      dictGet (path_param_dict (chars ("id"))) (chars ("required")) =
        some (PVal.bool true) :=
  ⟨by decide, claim4_path_parameters.1 (chars ("/x/{id}")) _ (by decide)⟩

/-! ### Claim C5 -/

/-- C5: when a docstring parameter's name is already registered in the
`params_map` (at position `i` of the pre-merge parameter list), the merge
step updates that parameter in place: the list keeps its length (no
duplicate is appended), every other position is untouched, position `i`
becomes the dict-update of the existing parameter with the docstring one,
keys absent from the docstring parameter keep their prior values, and keys
present in it (unique per record) take the docstring values. -/
theorem claim5_merge_updates_in_place
    (pmap : List (PVal × Nat)) (acc : List Dict) (dp : Dict) (i : Nat)
    (hfound : assocGet pmap (paramNameKey dp) = some i) (hlen : i < acc.length) :
    (mergeStep pmap acc dp).length = acc.length ∧
    (∀ j, j ≠ i → (mergeStep pmap acc dp).getD j [] = acc.getD j []) ∧
    (mergeStep pmap acc dp).getD i [] = dictUpdate (acc.getD i []) dp ∧
    (∀ k, dictHasKey dp k = false →
       dictGet (dictUpdate (acc.getD i []) dp) k = dictGet (acc.getD i []) k) ∧
    (∀ k v, (dp.map Prod.fst).Nodup → dictGet dp k = some v →
       dictGet (dictUpdate (acc.getD i []) dp) k = some v) := by
  have hstep : mergeStep pmap acc dp = acc.set i (dictUpdate (acc.getD i []) dp) := by
    simp [mergeStep, hfound]
  refine ⟨?_, ?_, ?_, ?_, ?_⟩
  · simp [hstep]
  · intro j hj
    rw [hstep]
    exact listGetD_set_ne _ _ _ _ _ hj
  · rw [hstep]
    exact listGetD_set_self _ _ _ _ hlen
  · intro k hk
    exact dictGet_dictUpdate_of_not_key _ _ _ hk
  · intro k v hnd hv
    exact dictGet_dictUpdate_of_key _ _ _ _ hnd hv

/-- C5 witness: the specification's merge-override example — an existing
form parameter `x` with empty `dataType` and the docstring line
`"x -- desc [dataType=int]"` — instantiates the in-place update theorem,
and the updated record's `dataType` is `"int"`. -/
theorem claim5_witness :
    assocGet (buildParamsMap [claim5_existing]) (paramNameKey claim5_dp) = some 0 ∧
    0 < ([claim5_existing] : List Dict).length ∧
    ((mergeStep (buildParamsMap [claim5_existing]) [claim5_existing] claim5_dp).length =
       ([claim5_existing] : List Dict).length ∧
     (∀ j, j ≠ 0 →
        (mergeStep (buildParamsMap [claim5_existing]) [claim5_existing] claim5_dp).getD j [] =
        ([claim5_existing] : List Dict).getD j []) ∧
     (mergeStep (buildParamsMap [claim5_existing]) [claim5_existing] claim5_dp).getD 0 [] =
       dictUpdate (([claim5_existing] : List Dict).getD 0 []) claim5_dp ∧
     (∀ k, dictHasKey claim5_dp k = false →
        dictGet (dictUpdate (([claim5_existing] : List Dict).getD 0 []) claim5_dp) k =
        dictGet (([claim5_existing] : List Dict).getD 0 []) k) ∧
     (∀ k v, (claim5_dp.map Prod.fst).Nodup → dictGet claim5_dp k = some v →
        dictGet (dictUpdate (([claim5_existing] : List Dict).getD 0 []) claim5_dp) k =
          some v)) ∧
    dictGet (dictUpdate claim5_existing claim5_dp) (chars ("dataType")) =
      some (PVal.str (chars ("int"))) :=
  ⟨by decide, by decide,
   claim5_merge_updates_in_place (buildParamsMap [claim5_existing]) [claim5_existing]
     claim5_dp 0 (by decide) (by decide),
   by decide⟩

/-! ### Claim C6 -/

/-- C6: in the pre-merge assembly of `get_parameters`, form and body
parameters are appended only when the HTTP method is neither GET nor
DELETE; the single body parameter is appended only when no form parameter
was derived and a body parameter exists; when at least one form parameter
exists the body parameter is never included. -/
theorem claim6_form_body_append_conditions (m : MethodIntrospector) :
    ((m.http_method = chars ("GET") ∨ m.http_method = chars ("DELETE")) →
       base_params m = build_path_parameters m.path) ∧
    (¬(m.http_method = chars ("GET") ∨ m.http_method = chars ("DELETE")) →
       (build_form_parameters m ≠ [] →
          base_params m = build_path_parameters m.path ++ build_form_parameters m) ∧
       (build_form_parameters m = [] →
          base_params m =
            build_path_parameters m.path ++ (build_body_parameters m).toList)) := by
  have hpp : (if (build_path_parameters m.path).isEmpty then ([] : List Dict)
      else [] ++ build_path_parameters m.path) = build_path_parameters m.path := by
    cases hq : build_path_parameters m.path <;> simp
  constructor
  · intro h
    simp only [base_params, if_pos h]
    exact hpp
  · intro h
    constructor
    · intro hform
      have hfe : (build_form_parameters m).isEmpty = false := by
        cases hq : build_form_parameters m <;> simp_all
      simp only [base_params, if_neg h]
      cases hb : build_body_parameters m <;> simp [hb, hfe, hpp]
    · intro hform
      simp only [base_params, if_neg h]
      cases hb : build_body_parameters m <;> simp [hb, hform, hpp]

/-- C6 witness: a POST introspector with one writable serializer field —
forms are appended and the body parameter is not. -/
theorem claim6_witness :
    ¬(claim6_m.http_method = chars ("GET") ∨ claim6_m.http_method = chars ("DELETE")) ∧
    build_form_parameters claim6_m ≠ [] ∧
    base_params claim6_m =
      build_path_parameters claim6_m.path ++ build_form_parameters claim6_m :=
  ⟨by decide, by decide,
   ((claim6_form_body_append_conditions claim6_m).2 (by decide)).1 (by decide)⟩

/-! ### Claim C7 -/

theorem flatten_pruneExcluded (simplify : Str → Str) (exclude : List Str) :
    ∀ (l : UrlTreeList) (pfx : Str),
      flatten_patterns_tree simplify exclude (pruneExcluded exclude l) pfx =
      flatten_patterns_tree simplify exclude l pfx
  | UrlTreeList.nil, _ => rfl
  | UrlTreeList.cons (UrlTreeNode.leaf d) rest, pfx => by
      simp [pruneExcluded, flatten_patterns_tree,
        flatten_pruneExcluded simplify exclude rest pfx]
  | UrlTreeList.cons (UrlTreeNode.resolver ns pat children) rest, pfx => by
      by_cases h : nsExcluded ns exclude = true
      · simp [pruneExcluded, flatten_patterns_tree, h,
          flatten_pruneExcluded simplify exclude rest pfx]
      · simp [pruneExcluded, flatten_patterns_tree, h,
          flatten_pruneExcluded simplify exclude children (pfx ++ pat),
          flatten_pruneExcluded simplify exclude rest pfx]

theorem noExcluded_pruneExcluded (exclude : List Str) :
    ∀ l : UrlTreeList, noExcludedResolver exclude (pruneExcluded exclude l) = true
  | UrlTreeList.nil => rfl
  | UrlTreeList.cons (UrlTreeNode.leaf d) rest => by
      simp [pruneExcluded, noExcludedResolver, noExcluded_pruneExcluded exclude rest]
  | UrlTreeList.cons (UrlTreeNode.resolver ns pat children) rest => by
      by_cases h : nsExcluded ns exclude = true
      · simp [pruneExcluded, h, noExcluded_pruneExcluded exclude rest]
      · simp [pruneExcluded, noExcludedResolver, h,
          noExcluded_pruneExcluded exclude children, noExcluded_pruneExcluded exclude rest]

/-- C7: flattening a route tree produces exactly the endpoints of the tree
with every excluded-namespace resolver subtree removed (at any nesting
depth), and that pruned tree contains no excluded resolver anywhere — so no
endpoint reachable only through an excluded namespace ever appears in the
flattened output, and excluded subtrees are never recursed into. -/
theorem claim7_excluded_namespaces_pruned (simplify : Str → Str) (exclude : List Str)
    (l : UrlTreeList) (pfx : Str) :
    flatten_patterns_tree simplify exclude l pfx =
      flatten_patterns_tree simplify exclude (pruneExcluded exclude l) pfx ∧
    noExcludedResolver exclude (pruneExcluded exclude l) = true :=
  ⟨(flatten_pruneExcluded simplify exclude l pfx).symm, noExcluded_pruneExcluded exclude l⟩

/-! ### Claim C8 -/

/-- C8: resolving the method-action mapping of a dispatch handler fails with
the `RuntimeError` message whenever the callback lacks `func_code`,
`func_closure` or `co_freevars`, or `'actions'` is not among the free
variables — the error is returned, never an `ok` value, so it propagates to
the caller; and when the action closure is present, the mapping stored in
the `'actions'` cell is returned. -/
theorem claim8_resolve_methods (cb : ViewSetCallback) :
    ((cb.func_code = Option.none ∨ cb.func_closure = Option.none ∨
      (∃ fc, cb.func_code = some fc ∧ fc.co_freevars = Option.none) ∨
      (∃ fc fv, cb.func_code = some fc ∧ fc.co_freevars = some fv ∧
        chars ("actions") ∉ fv)) →
      resolve_methods cb = Except.error runtime_error_msg) ∧
    (∀ fc clo fv cell, cb.func_code = some fc → cb.func_closure = some clo →
      fc.co_freevars = some fv → chars ("actions") ∈ fv →
      clo.get? (fv.indexOf (chars ("actions"))) = some cell →
      resolve_methods cb = Except.ok cell.cell_contents) := by
  obtain ⟨o1, o2⟩ := cb
  constructor
  · rintro (h | h | ⟨fc, hfc, hcf⟩ | ⟨fc, fv, hfc, hcf, hnm⟩)
    · simp only at h
      subst h
      cases o2 <;> rfl
    · simp only at h
      subst h
      cases o1 <;> rfl
    · simp only at hfc
      subst hfc
      cases o2 with
      | none => rfl
      | some clo => simp [resolve_methods, hcf]
    · simp only at hfc
      subst hfc
      cases o2 with
      | none => rfl
      | some clo => simp [resolve_methods, hcf, hnm]
  · intro fc clo fv cell hfc hclo hcf hmem hcell
    simp only at hfc hclo
    subst hfc
    subst hclo
    rw [List.get?_eq_getElem?] at hcell
    simp [resolve_methods, hcf, hmem, hcell]

/-- C8 witness: the good callback returns its actions mapping, the shapeless
callback returns the `RuntimeError`. -/
theorem claim8_witness :
    resolve_methods claim8_good =
      Except.ok [(chars ("get"), chars ("list"))] ∧
    resolve_methods claim8_bad = Except.error runtime_error_msg :=
  ⟨(claim8_resolve_methods claim8_good).2
     { co_freevars := some [chars ("actions")] }
     [{ cell_contents := [(chars ("get"), chars ("list"))] }]
     [chars ("actions")]
     { cell_contents := [(chars ("get"), chars ("list"))] }
     rfl rfl rfl (by decide) (by decide),
   (claim8_resolve_methods claim8_bad).1 (Or.inl rfl)⟩

/-! ### Claim C9 -/

/-- C9: for a root model `A` declaring related models `[B, C]` where `B`
declares `[D]` and `C`, `D` declare none, model resolution over the one API
exposing `A` produces a mapping whose keys are exactly `[A, B, C, D]` in
discovery order, without duplicates, each name mapped to the parse of that
model's docstring. -/
theorem claim9_transitive_model_resolution {α : Type} (parse : Str → α)
    (nA nB nC nD dA dB dC dD : Str)
    (hAB : nA ≠ nB) (hAC : nA ≠ nC) (hAD : nA ≠ nD)
    (hBC : nB ≠ nC) (hBD : nB ≠ nD) (hCD : nC ≠ nD) :
    (collector_get_models parse [some (claim9_modelA nA dA nB dB nC dC nD dD)]).map Prod.fst
      = [nA, nB, nC, nD] ∧
    ((collector_get_models parse [some (claim9_modelA nA dA nB dB nC dC nD dD)]).map
       Prod.fst).Nodup ∧
    assocGet (collector_get_models parse [some (claim9_modelA nA dA nB dB nC dC nD dD)]) nA
      = some (parse dA) ∧
    assocGet (collector_get_models parse [some (claim9_modelA nA dA nB dB nC dC nD dD)]) nB
      = some (parse dB) ∧
    assocGet (collector_get_models parse [some (claim9_modelA nA dA nB dB nC dC nD dD)]) nC
      = some (parse dC) ∧
    assocGet (collector_get_models parse [some (claim9_modelA nA dA nB dB nC dC nD dD)]) nD
      = some (parse dD) := by
  have hM : collector_get_models parse [some (claim9_modelA nA dA nB dB nC dC nD dD)] =
      [(nA, parse dA), (nB, parse dB), (nC, parse dC), (nD, parse dD)] := by
    simp [collector_get_models, introspector_get_models, claim9_modelA, claim9_modelB,
      claim9_leafModel, get_releated_models_list, releatedOfEach, modelListToList,
      ModelClass.hasRelAttr, ModelClass.name, ModelClass.doc, assocSet,
      hAB, hAC, hAD, hBC, hBD, hCD]
  rw [hM]
  refine ⟨rfl, ?_, ?_, ?_, ?_, ?_⟩
  · simp [hAB, hAC, hAD, hBC, hBD, hCD]
  · simp [assocGet]
  · simp [assocGet, hAB]
  · simp [assocGet, hAC, hBC]
  · simp [assocGet, hAD, hBD, hCD]

/-- C9 witness: the resolution theorem at concrete model names `A`, `B`,
`C`, `D` with the identity parser. -/
theorem claim9_witness :
    (collector_get_models (fun s => s)
       [some (claim9_modelA (chars ("A")) (chars ("da")) (chars ("B")) (chars ("db"))
          (chars ("C")) (chars ("dc")) (chars ("D")) (chars ("dd")))]).map Prod.fst
      = [chars ("A"), chars ("B"), chars ("C"), chars ("D")] ∧
    ((collector_get_models (fun s => s)
       [some (claim9_modelA (chars ("A")) (chars ("da")) (chars ("B")) (chars ("db"))
          (chars ("C")) (chars ("dc")) (chars ("D")) (chars ("dd")))]).map Prod.fst).Nodup ∧
    assocGet (collector_get_models (fun s => s)
       [some (claim9_modelA (chars ("A")) (chars ("da")) (chars ("B")) (chars ("db"))
          (chars ("C")) (chars ("dc")) (chars ("D")) (chars ("dd")))]) (chars ("A"))
      = some (chars ("da")) ∧
    assocGet (collector_get_models (fun s => s)
       [some (claim9_modelA (chars ("A")) (chars ("da")) (chars ("B")) (chars ("db"))
          (chars ("C")) (chars ("dc")) (chars ("D")) (chars ("dd")))]) (chars ("B"))
      = some (chars ("db")) ∧
    assocGet (collector_get_models (fun s => s)
       [some (claim9_modelA (chars ("A")) (chars ("da")) (chars ("B")) (chars ("db"))
          (chars ("C")) (chars ("dc")) (chars ("D")) (chars ("dd")))]) (chars ("C"))
      = some (chars ("dc")) ∧
    assocGet (collector_get_models (fun s => s)
       [some (claim9_modelA (chars ("A")) (chars ("da")) (chars ("B")) (chars ("db"))
          (chars ("C")) (chars ("dc")) (chars ("D")) (chars ("dd")))]) (chars ("D"))
      = some (chars ("dd")) :=
  claim9_transitive_model_resolution (fun s => s)
    (chars ("A")) (chars ("B")) (chars ("C")) (chars ("D"))
    (chars ("da")) (chars ("db")) (chars ("dc")) (chars ("dd"))
    (by decide) (by decide) (by decide) (by decide) (by decide) (by decide)

/-! ### Claim C10 -/

theorem splitNl_ne_nil : ∀ s : Str, splitNl s ≠ []
  | [] => by simp [splitNl]
  | c :: rest => by
      by_cases h : c = '\n'
      · simp [splitNl, h]
      · cases hr : splitNl rest <;> simp [splitNl, h, hr]

theorem splitNl_append_newline (a b : Str) :
    splitNl (a ++ '\n' :: b) = splitNl a ++ splitNl b := by
  induction a with
  | nil => simp [splitNl]
  | cons c rest ih =>
      by_cases h : c = '\n'
      · simp [splitNl, h, ih]
      · cases hr : splitNl rest with
        | nil => exact absurd hr (splitNl_ne_nil rest)
        | cons h0 t0 => simp [splitNl, h, ih, hr]

/-- C10: the docstring scanned for inline parameters is the method docstring
with the handler's class-level view description appended after a newline, so
a qualifying parameter line anywhere in the class description contributes
its parameter record to the operation — for any HTTP method and even when
the method docstring has no parameter line at all. -/
theorem claim10_class_description_scanned (m : MethodIntrospector) (line : Str) (pd : Dict)
    (hline : line ∈ splitNl m.viewDescription)
    (hpd : docstring_param_of_line line = some pd) :
    pd ∈ build_query_params_from_docstring m := by
  unfold build_query_params_from_docstring
  have hsplit : (m.methodDoc.getD []) ++ chars ("\n") ++ m.viewDescription =
      (m.methodDoc.getD []) ++ '\n' :: m.viewDescription := by
    rw [List.append_assoc]
    rfl
  rw [hsplit, splitNl_append_newline]
  exact List.mem_filterMap.mpr ⟨line, List.mem_append_right _ hline, hpd⟩

/-- C10 witness: a GET introspector without a method docstring whose class
description holds the line `"tok -- from class"`; its record appears in the
extracted parameters. -/
theorem claim10_witness :
    chars ("tok -- from class") ∈ splitNl claim10_m.viewDescription ∧
    docstring_param_of_line (chars ("tok -- from class")) = some claim10_pd ∧
    claim10_pd ∈ build_query_params_from_docstring claim10_m :=
  ⟨by decide, by decide,
   claim10_class_description_scanned claim10_m (chars ("tok -- from class")) claim10_pd
     (by decide) (by decide)⟩
